import Mathlib

/-
Verification of the rule-based intent-extraction engine of logimos/go-bridge-vm
(package `myllm`, file internal/services/enhanced_local_provider.go, with the
configuration model from internal/models/intent_config.go and the result record
from internal/models/intent.go).

Modelling conventions:
  * Go `float64` scores are modelled as exact rationals; every constant in the
    scoring formula (0.8, 0.6, 0.4, 0.3, 0.2, 0.1, 0.5) is a decimal fraction.
  * Go maps (`config.Intents`, `config.Entities`, `config.Synonyms`,
    `config.Confidence`, and the `Vars` result map) are modelled as association
    lists; the list order of `intents` models the (unspecified) iteration order
    of a `range` loop over the Go map, which `classifyIntent` depends on.
  * Compiled regular expressions (`regexp.Regexp` values produced by
    `compileConfig`) are modelled as opaque match functions stored alongside
    the pattern record: a `String → Bool` per intent pattern
    (`(*Regexp).MatchString`) and a `String → Option String` per entity pattern
    (`(*Regexp).FindStringSubmatch`, returning the first capture group, with
    `some ""` for a match whose first group did not participate and `none`
    when there is no match or the pattern has no group).
  * All character-level functions are stated for the ASCII fragment the
    repository exercises; `strings.ToLower`, `unicode.IsUpper`,
    `unicode.IsPunct` and friends are modelled by their ASCII behaviour.
-/

namespace MyLLM

/-- Characters treated as white space by Go `strings.Fields`
(`unicode.IsSpace`, ASCII fragment). -/
def isGoSpace (c : Char) : Bool :=
  c == ' ' || c == '\t' || c == '\n' || c == '\x0b' || c == '\x0c' || c == '\r'

/-- ASCII lower-casing, modelling `strings.ToLower` on ASCII input. -/
def goToLower (s : String) : String :=
  String.mk (s.toList.map Char.toLower)

/-- Does `pat` occur as a prefix of `l`?  Helper for `charsContains`. -/
def charsHasPrefix : List Char → List Char → Bool
  | [], _ => true
  | _ :: _, [] => false
  | p :: ps, c :: cs => p == c && charsHasPrefix ps cs

/-- Does `sub` occur as a contiguous substring of `l`?  Helper for `goContains`. -/
def charsContains (sub : List Char) : List Char → Bool
  | [] => sub.isEmpty
  | c :: rest => charsHasPrefix sub (c :: rest) || charsContains sub rest

/-- Go `strings.Contains s sub`. -/
def goContains (s sub : String) : Bool :=
  charsContains sub.toList s.toList

/-- Accumulator-style splitter behind `goFields`; splits on `isGoSpace`. -/
def fieldsAux : List Char → List Char → List String
  | [], acc => if acc.isEmpty then [] else [String.mk acc.reverse]
  | c :: cs, acc =>
    if isGoSpace c then
      if acc.isEmpty then fieldsAux cs [] else String.mk acc.reverse :: fieldsAux cs []
    else fieldsAux cs (c :: acc)

/-- Go `strings.Fields`: the maximal runs of non-space characters. -/
def goFields (s : String) : List String :=
  fieldsAux s.toList []

/-- The cut set `".,!?;:"` used by the extractor when cleaning a word. -/
def isCutPunct (c : Char) : Bool :=
  c == '.' || c == ',' || c == '!' || c == '?' || c == ';' || c == ':'

/-- Go `strings.Trim word ".,!?;:"`: drop those characters from both ends. -/
def goTrimPunct (s : String) : String :=
  String.mk (((s.toList.dropWhile isCutPunct).reverse.dropWhile isCutPunct).reverse)

/-- ASCII punctuation (Unicode category P restricted to ASCII), modelling
`unicode.IsPunct` in `normalizeText`.  Note that `$ + < = > ^ ~ |` are
symbols, not punctuation, so they are absent. -/
def isGoPunct (c : Char) : Bool :=
  c == '!' || c == '"' || c == '#' || c == '%' || c == '&' || c == '\x27' ||
  c == '(' || c == ')' || c == '*' || c == ',' || c == '-' || c == '.' ||
  c == '/' || c == ':' || c == ';' || c == '?' || c == '@' || c == '[' ||
  c == '\\' || c == ']' || c == '_' || c == '\x7b' || c == '\x7d'

/-- Association-list lookup modelling a Go map read (`m[k]` with `ok`). -/
def lookupStr {α : Type} (l : List (String × α)) (k : String) : Option α :=
  (l.find? (fun e => e.1 == k)).map (fun e => e.2)

/-- A value stored in the `Vars` map of a result (`map[string]interface{}`):
either an extracted entity string or the float confidence score. -/
inductive GoVal where
  | str (s : String)
  | num (q : ℚ)
deriving DecidableEq

/-- Map update modelling `m[k] = v` on a Go map: the new binding shadows any
previous binding for `k`, all other keys keep their bindings. -/
def mapSet (m : List (String × GoVal)) (k : String) (v : GoVal) : List (String × GoVal) :=
  (k, v) :: m.filter (fun e => !(e.1 == k))

/-- IntentPattern from internal/models/intent_config.go, with its regex list
already compiled (`compileConfig`) into match functions. -/
structure IntentPattern where
  description : String := ""
  keywords : List String := []
  phrases : List String := []
  regexes : List (String → Bool) := []
  priority : Int := 0
  variableNames : List String := []
  required : List String := []
  examples : List String := []
  followUp : List String := []

/-- EntityPattern from internal/models/intent_config.go, with its regex list
already compiled into first-capture-group extraction functions. -/
structure EntityPattern where
  etype : String := ""
  description : String := ""
  matchers : List (String → Option String) := []
  keywords : List String := []
  examples : List String := []

/-- IntentConfig from internal/models/intent_config.go.  The maps are
association lists; the order of `intents` models the iteration order of the
`range` loop in `classifyIntent` on this particular call. -/
structure IntentConfig where
  domain : String
  version : String
  intents : List (String × IntentPattern)
  entities : List (String × EntityPattern)
  synonyms : List (String × List String)
  confidence : List (String × ℚ)

/-- The stop-word table of `isStopWord`. -/
def stopWords : List String :=
  ["the", "a", "an", "and", "or", "but",
   "in", "on", "at", "to", "for", "of",
   "with", "by", "from", "up", "about",
   "into", "through", "during", "before", "after",
   "above", "below", "between", "among",
   "is", "are", "was", "were", "be", "been",
   "have", "has", "had", "do", "does", "did",
   "will", "would", "could", "should", "may", "might"]

/-- `isStopWord` from enhanced_local_provider.go. -/
def isStopWord (word : String) : Bool :=
  stopWords.contains word

/-- `getSynonyms`: the synonym list configured for `word`, or `[]`. -/
def getSynonyms (synonyms : List (String × List String)) (word : String) : List String :=
  (lookupStr synonyms word).getD []

/-- `normalizeText` from enhanced_local_provider.go: lower-case, collapse
white space, replace punctuation other than `@ . _ -` by a space, collapse
white space again. -/
def normalizeText (text : String) : String :=
  let lowered := goToLower text
  let collapsed := String.intercalate " " (goFields lowered)
  let replaced := String.mk (collapsed.toList.map
    (fun c => if isGoPunct c && !(c == '@' || c == '.' || c == '_' || c == '-') then ' ' else c))
  String.intercalate " " (goFields replaced)

/-- `tokenize`: split the lower-cased text on white space and drop stop words. -/
def tokenize (text : String) : List String :=
  (goFields (goToLower text)).filter (fun w => !isStopWord w)

/-- `getIntentWords`: the keywords of the intent plus the words of its
lower-cased phrases. -/
def getIntentWords (intent : IntentPattern) : List String :=
  intent.keywords ++ intent.phrases.flatMap (fun ph => goFields (goToLower ph))

/-- `calculateWordOverlap`: the fraction of the intent vocabulary that occurs
among the text tokens (0 when the vocabulary is empty). -/
def calculateWordOverlap (textWords intentWords : List String) : ℚ :=
  if intentWords.length = 0 then 0
  else ((intentWords.filter (fun w => textWords.contains w)).length : ℚ) / (intentWords.length : ℚ)

/-- The per-keyword contribution inside the keyword loop of
`calculateIntentScore`: 0.4 for a substring match of the keyword itself,
otherwise 0.3 if some synonym of the keyword is a substring (the inner loop
breaks at the first synonym hit), otherwise 0. -/
def keywordContribution (synonyms : List (String × List String)) (textLower kw : String) : ℚ :=
  if goContains textLower (goToLower kw) then 2/5
  else if (getSynonyms synonyms kw).any (fun syn => goContains textLower (goToLower syn)) then 3/10
  else 0

/-- The keyword loop of `calculateIntentScore`: the running `keywordScore`
accumulated over the keyword list. -/
def keywordRawScore (synonyms : List (String × List String)) (textLower : String)
    (keywords : List String) : ℚ :=
  keywords.foldl (fun acc kw => acc + keywordContribution synonyms textLower kw) 0

/-- Signal 3 of `calculateIntentScore`: the accumulated keyword score divided
by the number of configured keywords when that number is positive. -/
def keywordSignal (synonyms : List (String × List String)) (textLower : String)
    (keywords : List String) : ℚ :=
  let raw := keywordRawScore synonyms textLower keywords
  if keywords.length > 0 then raw / (keywords.length : ℚ) else raw

/-- Signal 1 of `calculateIntentScore`: 0.8 if any compiled regex of the
intent matches (the loop breaks at the first hit). -/
def regexSignal (intent : IntentPattern) (text : String) : ℚ :=
  if intent.regexes.any (fun re => re text) then 4/5 else 0

/-- Signal 2 of `calculateIntentScore`: 0.6 if the lower-cased text contains
any configured phrase as a substring (first hit breaks the loop). -/
def phraseSignal (intent : IntentPattern) (textLower : String) : ℚ :=
  if intent.phrases.any (fun ph => goContains textLower (goToLower ph)) then 3/5 else 0

/-- Signals 1-4 of `calculateIntentScore` (everything except the length
bonus), in the order the source accumulates them. -/
def calculateIntentScoreBase (cfg : IntentConfig) (text : String) (intent : IntentPattern) : ℚ :=
  let textLower := goToLower text
  regexSignal intent text
    + phraseSignal intent textLower
    + keywordSignal cfg.synonyms textLower intent.keywords
    + calculateWordOverlap (tokenize text) (getIntentWords intent) * (1/5)

/-- `calculateIntentScore` from enhanced_local_provider.go: the four matching
signals plus the 0.1 length bonus for `len(text) > 20`, where `text` is the
string handed to the classifier. -/
def calculateIntentScore (cfg : IntentConfig) (text : String) (intent : IntentPattern) : ℚ :=
  calculateIntentScoreBase cfg text intent + (if text.length > 20 then 1/10 else 0)

/-- The score of an intent after the priority boost `priority * 0.1` applied
inside the loop of `classifyIntent`. -/
def boostedScore (cfg : IntentConfig) (text : String) (intent : IntentPattern) : ℚ :=
  calculateIntentScore cfg text intent + (intent.priority : ℚ) * (1/10)

/-- One iteration of the best-intent loop of `classifyIntent`: replace the
current best only on strict improvement of the boosted score. -/
def classifyStep (cfg : IntentConfig) (text : String) (best : String × ℚ)
    (entry : String × IntentPattern) : String × ℚ :=
  if boostedScore cfg text entry.2 > best.2 then (entry.1, boostedScore cfg text entry.2) else best

/-- The best-intent loop of `classifyIntent`, starting from
`("UNKNOWN", 0.0)` and visiting the intents in the iteration order given by
`cfg.intents`. -/
def classifyFold (cfg : IntentConfig) (text : String) : String × ℚ :=
  cfg.intents.foldl (classifyStep cfg text) ("UNKNOWN", 0)

/-- The threshold check of `classifyIntent`: the configured confidence for the
winner, with 0.5 substituted when the map lookup yields (float) zero, i.e.
both when no entry exists and when an entry is exactly 0. -/
def codeThreshold (cfg : IntentConfig) (name : String) : ℚ :=
  let t := (lookupStr cfg.confidence name).getD 0
  if t = 0 then 1/2 else t

/-- The result record of `classifyIntent`. -/
structure IntentResult where
  intent : String
  confidence : ℚ
deriving DecidableEq

/-- `classifyIntent` from enhanced_local_provider.go: run the best-intent
loop, revert to `("UNKNOWN", 0)` when the winning score is below the
threshold, and clamp the reported confidence to at most 1. -/
def classifyIntent (cfg : IntentConfig) (text : String) : IntentResult :=
  let best := classifyFold cfg text
  let final := if best.2 < codeThreshold cfg best.1 then ("UNKNOWN", (0 : ℚ)) else best
  { intent := final.1, confidence := min final.2 1 }

/-- Leftmost match of the quote pattern `"([^"]+)"` used by
`extractEntityByKeywords` for the name and title cases: the content between
the first pair of double quotes enclosing at least one character. -/
def quotedAux : List Char → Option String
  | [] => none
  | c :: rest =>
    if c = '"' then
      let content := rest.takeWhile (fun d => !(d == '"'))
      let remainder := rest.dropWhile (fun d => !(d == '"'))
      match remainder with
      | [] => none
      | _ :: _ => if content.isEmpty then quotedAux rest else some (String.mk content)
    else quotedAux rest

/-- String-level wrapper around `quotedAux`. -/
def quotedSpan (text : String) : Option String :=
  quotedAux text.toList

/-- Is the first character an ASCII upper-case letter
(`unicode.IsUpper(rune(w[0]))` on ASCII)? -/
def headIsUpper (s : String) : Bool :=
  match s.toList with
  | c :: _ => c.isUpper
  | [] => false

/-- The name-anchor loop of `extractEntityByKeywords` (case `"name"`): scan
for an anchor word `named`/`name`/`contact`/`person`; the following word,
trimmed, is accepted when it is non-empty, starts with an upper-case letter
and is not a stop word.  (The further look-ahead branches in the source all
return the same trimmed word, so they are collapsed here.)  When the
candidate is rejected the scan continues with the next word. -/
def nameAnchorScan : List String → Option String
  | [] => none
  | w :: rest =>
    let wl := goToLower w
    if wl == "named" || wl == "name" || wl == "contact" || wl == "person" then
      match rest with
      | [] => none
      | next :: _ =>
        let nw := goTrimPunct next
        if nw.length > 0 && headIsUpper nw && !isStopWord (goToLower nw) then some nw
        else nameAnchorScan rest
    else nameAnchorScan rest

/-- The email-anchor loop of `extractEntityByKeywords` (case `"email"`). -/
def emailAnchorScan : List String → Option String
  | [] => none
  | w :: rest =>
    let wl := goToLower w
    if wl == "email" || wl == "e-mail" || wl == "mail" then
      match rest with
      | [] => none
      | next :: _ =>
        let nw := goTrimPunct next
        if goContains nw "@" && goContains nw "." then some nw
        else emailAnchorScan rest
    else emailAnchorScan rest

/-- The phone-anchor loop of `extractEntityByKeywords` (case `"phone"`). -/
def phoneAnchorScan : List String → Option String
  | [] => none
  | w :: rest =>
    let wl := goToLower w
    if wl == "phone" || wl == "mobile" || wl == "cell" then
      match rest with
      | [] => none
      | next :: _ =>
        let nw := goTrimPunct next
        if nw.toList.any Char.isDigit
            && (goContains nw "-" || goContains nw "(" || nw.length ≥ 10) then some nw
        else phoneAnchorScan rest
    else phoneAnchorScan rest

/-- The date loop of `extractEntityByKeywords` (case `"date"`): the first
word whose trimmed lower-cased form is a recognised literal. -/
def dateScan : List String → Option String
  | [] => none
  | w :: rest =>
    let wl := goToLower (goTrimPunct w)
    if wl == "today" || wl == "tomorrow" || wl == "yesterday" then some wl
    else dateScan rest

/-- The time-anchor loop of `extractEntityByKeywords` (case `"time"`). -/
def timeAnchorScan : List String → Option String
  | [] => none
  | w :: rest =>
    let wl := goToLower w
    if wl == "at" then
      match rest with
      | [] => none
      | next :: _ =>
        let nw := goTrimPunct next
        if nw.toList.any Char.isDigit
            && (goContains nw ":" || goContains (goToLower nw) "am"
                || goContains (goToLower nw) "pm") then some nw
        else timeAnchorScan rest
    else timeAnchorScan rest

/-- The location-anchor loop of `extractEntityByKeywords` (case `"location"`). -/
def locationAnchorScan : List String → Option String
  | [] => none
  | w :: rest =>
    let wl := goToLower w
    if wl == "in" || wl == "at" then
      match rest with
      | [] => none
      | next :: _ =>
        let nw := goTrimPunct next
        if nw.length > 0 && headIsUpper nw && !isStopWord (goToLower nw) then some nw
        else locationAnchorScan rest
    else locationAnchorScan rest

/-- The inner collection loop of the title case: gather trimmed words after
the anchor, skipping empty ones, until a stop word or a boundary token. -/
def titleCollect : List String → List String
  | [] => []
  | w :: rest =>
    let nw := goTrimPunct w
    if nw.length == 0 then titleCollect rest
    else
      let nwl := goToLower nw
      if isStopWord nwl || nwl == "tomorrow" || nwl == "today" || nwl == "yesterday"
          || nwl == "at" || nwl == "with" || nwl == "email" || nwl == "phone"
          || nwl == "on" || nwl == "in" || nwl == "to" then []
      else nw :: titleCollect rest

/-- The title-anchor loop of `extractEntityByKeywords` (case `"title"`): after
an anchor `called`/`titled`/`named`/`for`, join the collected words; when
nothing was collected the outer scan continues. -/
def titleAnchorScan : List String → Option String
  | [] => none
  | w :: rest =>
    let wl := goToLower w
    if wl == "called" || wl == "titled" || wl == "named" || wl == "for" then
      let ts := titleCollect rest
      if ts.length > 0 then some (String.intercalate " " ts) else titleAnchorScan rest
    else titleAnchorScan rest

/-- `extractEntityByKeywords` from enhanced_local_provider.go: the per-type
keyword strategies; quoted spans take precedence for name and title; an empty
string signals failure.  The `EntityPattern` argument is unused by the
source as well (the switch is on the entity name alone). -/
def extractEntityByKeywords (text entityName : String) (_entity : EntityPattern) : String :=
  let words := goFields text
  if entityName == "name" then
    match quotedSpan text with
    | some s => s
    | none => (nameAnchorScan words).getD ""
  else if entityName == "email" then (emailAnchorScan words).getD ""
  else if entityName == "phone" then (phoneAnchorScan words).getD ""
  else if entityName == "date" then (dateScan words).getD ""
  else if entityName == "time" then (timeAnchorScan words).getD ""
  else if entityName == "location" then (locationAnchorScan words).getD ""
  else if entityName == "title" then
    match quotedSpan text with
    | some s => s
    | none => (titleAnchorScan words).getD ""
  else ""

/-- The regex stage of `extractEntities` for one entity: the first compiled
pattern whose submatch list has more than one element yields its first
capture group. -/
def firstRegexCapture (matchers : List (String → Option String)) (text : String) : Option String :=
  matchers.findSome? (fun m => m text)

/-- The value `extractEntities` stores for one entity key, or `none` when the
key stays absent: the regex stage runs first; because the source re-reads
`entities[name]` (which is `""` both when absent and when a regex captured an
empty group), the keyword stage runs whenever the regex stage produced no
non-empty value, and an empty regex capture survives when the keyword stage
also fails. -/
def entityValue (text entityName : String) (ep : EntityPattern) : Option String :=
  match firstRegexCapture ep.matchers text with
  | some v =>
    if v == "" then
      let kw := extractEntityByKeywords text entityName ep
      if kw == "" then some "" else some kw
    else some v
  | none =>
    let kw := extractEntityByKeywords text entityName ep
    if kw == "" then none else some kw

/-- `extractEntities` from enhanced_local_provider.go as the contents of its
result map.  The source processes `name`, then `title`, then the remaining
entities, but each iteration reads and writes only its own key, so the map
contents are the per-entity values independently of that ordering. -/
def extractEntities (cfg : IntentConfig) (text : String) : List (String × String) :=
  cfg.entities.filterMap (fun e => (entityValue text e.1 e.2).map (fun v => (e.1, v)))

/-- The camel-case fallback of `getIntentDisplayName`: every character is
lower-cased and a space is inserted before each upper-case character except
the first. -/
def camelAux : List Char → List Char
  | [] => []
  | c :: rest =>
    if c.isUpper then ' ' :: Char.toLower c :: camelAux rest
    else Char.toLower c :: camelAux rest

/-- `getIntentDisplayName` from enhanced_local_provider.go. -/
def getIntentDisplayName (intentName : String) : String :=
  if intentName == "CreateEvent" then "event"
  else if intentName == "CreateTask" then "task"
  else if intentName == "CreateContact" then "contact"
  else if intentName == "CreateNote" then "note"
  else if intentName == "Weather" then "weather"
  else if intentName == "Time" then "time"
  else if intentName == "Calculator" then "calculation"
  else
    match intentName.toList with
    | [] => ""
    | c :: rest => String.mk (Char.toLower c :: camelAux rest)

/-- The default-question table of `generateFollowUpQuestion` (the branches of
its switch on the field name). -/
def defaultFieldQuestion (intentName field : String) : String :=
  if field == "title" then
    "What should I call this " ++ getIntentDisplayName intentName ++ "?"
  else if field == "name" then "What\x27s the name?"
  else if field == "email" then "What\x27s the email address?"
  else if field == "phone" then "What\x27s the phone number?"
  else if field == "date" then
    "When should this " ++ getIntentDisplayName intentName ++ " be scheduled?"
  else if field == "time" then
    "What time should this " ++ getIntentDisplayName intentName ++ " be?"
  else if field == "duration" then
    "How long should this " ++ getIntentDisplayName intentName ++ " last?"
  else if field == "location" then
    "Where should this " ++ getIntentDisplayName intentName ++ " take place?"
  else if field == "description" then
    "Can you provide more details about this " ++ getIntentDisplayName intentName ++ "?"
  else if field == "priority" then
    "What priority should this " ++ getIntentDisplayName intentName ++ " have?"
  else
    "What " ++ field ++ " should I use for this " ++ getIntentDisplayName intentName ++ "?"

/-- `generateFollowUpQuestion` from enhanced_local_provider.go: the first
custom template whose lower-cased text contains the lower-cased field name is
used verbatim; otherwise the default table synthesises a question. -/
def generateFollowUpQuestion (intentName field : String) (customFollowUp : List String) : String :=
  match customFollowUp.find? (fun q => goContains (goToLower q) (goToLower field)) with
  | some q => q
  | none => defaultFieldQuestion intentName field

/-- Is a required field missing: absent from the `Vars` map, or bound to the
empty string (the `value == ""` interface comparison is true only for the
string value `""`, never for the float confidence)? -/
def fieldMissing (vars : List (String × GoVal)) (f : String) : Bool :=
  match lookupStr vars f with
  | none => true
  | some v => v == GoVal.str ""

/-- The missing-field list computed by `addMissingFieldsAndFollowUp`. -/
def missingFields (pat : IntentPattern) (vars : List (String × GoVal)) : List String :=
  pat.required.filter (fieldMissing vars)

/-- The follow-up list computed by `addMissingFieldsAndFollowUp`: a question
per missing field, dropped when the generated question is empty. -/
def followUpQuestions (intentName : String) (pat : IntentPattern)
    (vars : List (String × GoVal)) : List String :=
  ((missingFields pat vars).map
    (fun f => generateFollowUpQuestion intentName f pat.followUp)).filter (fun q => !(q == ""))

/-- The result record (`models.Intent`), as filled in by the enhanced local
provider.  The unused JSON-level `Confidence` field of the Go struct (the
provider reports confidence inside `Vars`) is omitted. -/
structure Intent where
  task : String
  vars : List (String × GoVal)
  missing : List String := []
  followUp : List String := []
  isComplete : Bool := false

/-- `addMissingFieldsAndFollowUp` from enhanced_local_provider.go: when the
winning intent exists in the configuration, record its missing required
fields, their follow-up questions, and the completeness flag. -/
def addMissingFieldsAndFollowUp (cfg : IntentConfig) (intent : Intent)
    (intentName : String) : Intent :=
  match lookupStr cfg.intents intentName with
  | none => intent
  | some pat =>
    { intent with
      missing := missingFields pat intent.vars
      followUp := followUpQuestions intentName pat intent.vars
      isComplete := (missingFields pat intent.vars).length = 0 }

/-- `ExtractIntent` from enhanced_local_provider.go: normalise the text,
classify on the normalised text, extract entities from the original text,
store the entities and then the confidence in `Vars`, and run the
missing-field pass when a concrete intent was selected. -/
def ExtractIntent (cfg : IntentConfig) (text : String) : Intent :=
  let normalizedText := normalizeText text
  let intentResult := classifyIntent cfg normalizedText
  let entities := extractEntities cfg text
  let vars0 : List (String × GoVal) := entities.map (fun e => (e.1, GoVal.str e.2))
  let vars := mapSet vars0 "confidence" (GoVal.num intentResult.confidence)
  let base : Intent := { task := intentResult.intent, vars := vars }
  if intentResult.intent == "UNKNOWN" then base
  else addMissingFieldsAndFollowUp cfg base intentResult.intent

/-
Models of the three compiled entity regexes of `GetDefaultConfig`
(internal/models/intent_config.go).  They implement the leftmost-first match
semantics of the Go `regexp` package for exactly those patterns on ASCII
text.  Under the `(?i)` flag the classes `[A-Z]` and `[a-z]` both match any
ASCII letter.
-/

/-- The regex white-space class `\s` of the Go `regexp` package
(`[\t\n\f\r ]`). -/
def isRegexSpace (c : Char) : Bool :=
  c == ' ' || c == '\t' || c == '\n' || c == '\x0c' || c == '\r'

/-- Match a literal pattern case-insensitively at the head of the input and
return the remainder. -/
def stripCI : List Char → List Char → Option (List Char)
  | [], l => some l
  | _ :: _, [] => none
  | p :: ps, c :: cs => if Char.toLower c == Char.toLower p then stripCI ps cs else none

/-- Match `\s+` at the head of the input (greedy, maximal). -/
def stripSpaces1 (l : List Char) : Option (List Char) :=
  match l with
  | c :: rest => if isRegexSpace c then some (rest.dropWhile isRegexSpace) else none
  | [] => none

/-- Match `[A-Z][a-z]+` under `(?i)` (a letter followed by at least one more
letter, maximal munch): consumed characters and remainder. -/
def nameWord (l : List Char) : Option (List Char × List Char) :=
  match l with
  | c :: rest =>
    if c.isAlpha then
      let tail := rest.takeWhile Char.isAlpha
      if tail.isEmpty then none else some (c :: tail, rest.dropWhile Char.isAlpha)
    else none
  | [] => none

/-- Greedy `(?:\s+[A-Z][a-z]+)*` under `(?i)`; the fuel bounds the number of
iterations (each iteration consumes at least two characters). -/
def nameGroupStar : Nat → List Char → List Char × List Char
  | 0, l => ([], l)
  | n + 1, l =>
    let sp := l.takeWhile isRegexSpace
    if sp.isEmpty then ([], l)
    else
      match nameWord (l.dropWhile isRegexSpace) with
      | none => ([], l)
      | some (w, rest2) =>
        let (more, rem) := nameGroupStar n rest2
        (sp ++ w ++ more, rem)

/-- The capture group `([A-Z][a-z]+(?:\s+[A-Z][a-z]+)*)` under `(?i)`. -/
def nameGroup (l : List Char) : Option (List Char × List Char) :=
  match nameWord l with
  | none => none
  | some (w, rest) =>
    let (more, rem) := nameGroupStar rest.length rest
    some (w ++ more, rem)

/-- The anchor alternation `(?:named\s+|name\s+is\s+|call(?:ed)?\s+)` at the
head of the input.  The alternatives are mutually exclusive on the same
input, so committing to the first anchor that matches is faithful to the
backtracking order. -/
def nameAnchorAt (l : List Char) : Option (List Char) :=
  match (stripCI ("named".toList) l).bind stripSpaces1 with
  | some r => some r
  | none =>
    match ((stripCI ("name".toList) l).bind stripSpaces1).bind
        (fun r => (stripCI ("is".toList) r).bind stripSpaces1) with
    | some r => some r
    | none =>
      match ((stripCI ("call".toList) l).bind (stripCI ("ed".toList))).bind stripSpaces1 with
      | some r => some r
      | none => (stripCI ("call".toList) l).bind stripSpaces1

/-- One attempt of the name pattern at a fixed start position. -/
def nameTryAt (l : List Char) : Option String :=
  (nameAnchorAt l).bind (fun r => (nameGroup r).map (fun g => String.mk g.1))

/-- Leftmost scan of the name pattern. -/
def nameScan : List Char → Option String
  | [] => none
  | c :: rest =>
    match nameTryAt (c :: rest) with
    | some s => some s
    | none => nameScan rest

/-- `FindStringSubmatch` group 1 of the compiled default name regex
`(?i)(?:named\s+|name\s+is\s+|call(?:ed)?\s+)([A-Z][a-z]+(?:\s+[A-Z][a-z]+)*)`. -/
def nameMatcher (s : String) : Option String :=
  nameScan s.toList

/-- The class `[a-zA-Z0-9._%+-]` of the default email regex. -/
def isLocalChar (c : Char) : Bool :=
  c.isAlphanum || c == '.' || c == '_' || c == '%' || c == '+' || c == '-'

/-- The class `[a-zA-Z0-9.-]` of the default email regex. -/
def isDomainChar (c : Char) : Bool :=
  c.isAlphanum || c == '.' || c == '-'

/-- Backtracking of `[a-zA-Z0-9.-]+\.[a-zA-Z]{2,}` over the maximal
domain-class run: the literal dot is placed as far right as possible such
that a non-empty prefix precedes it and at least two letters follow; the
trailing letter run is maximal. -/
def domainScan : List Char → List Char → Option (List Char)
  | _, [] => none
  | accRev, c :: rest =>
    match domainScan (c :: accRev) rest with
    | some r => some r
    | none =>
      if c == '.' && !accRev.isEmpty then
        let lets := rest.takeWhile Char.isAlpha
        if lets.length ≥ 2 then some (accRev.reverse ++ '.' :: lets) else none
      else none

/-- One attempt of the email pattern at a fixed start position. -/
def emailTryAt (l : List Char) : Option String :=
  let localPart := l.takeWhile isLocalChar
  if localPart.isEmpty then none
  else
    match l.dropWhile isLocalChar with
    | '@' :: rest =>
      match domainScan [] (rest.takeWhile isDomainChar) with
      | some d => some (String.mk (localPart ++ '@' :: d))
      | none => none
    | _ => none

/-- Leftmost scan of the email pattern. -/
def emailScan : List Char → Option String
  | [] => none
  | c :: rest =>
    match emailTryAt (c :: rest) with
    | some s => some s
    | none => emailScan rest

/-- `FindStringSubmatch` group 1 of the compiled default email regex
`(?i)([a-zA-Z0-9._%+-]+@[a-zA-Z0-9.-]+\.[a-zA-Z]{2,})` (the group is the
whole match). -/
def emailMatcher (s : String) : Option String :=
  emailScan s.toList

/-- The separator class `[-.\s]` of the default phone regex. -/
def isSepChar (c : Char) : Bool :=
  c == '-' || c == '.' || isRegexSpace c

/-- Single-character matcher: the list of remainders after consuming one
character satisfying `p` (empty when impossible). -/
def mchar (p : Char → Bool) (l : List Char) : List (List Char) :=
  match l with
  | c :: rest => if p c then [rest] else []
  | [] => []

/-- Greedy `?`: try consuming, then try the empty alternative. -/
def mopt (m : List Char → List (List Char)) (l : List Char) : List (List Char) :=
  m l ++ [l]

/-- Exactly `n` digits (`\d{n}`). -/
def mdigitsExact : Nat → List Char → List (List Char)
  | 0, l => [l]
  | _ + 1, [] => []
  | n + 1, c :: rest => if c.isDigit then mdigitsExact n rest else []

/-- Greedy `\d{1,3}`: three, two, or one digit, in backtracking order. -/
def mdigits13 (l : List Char) : List (List Char) :=
  mdigitsExact 3 l ++ mdigitsExact 2 l ++ mdigitsExact 1 l

/-- Does `\(?\d{3}\)?[-.\s]?\d{3}[-.\s]?\d{4}` (the part of the phone
pattern after the optional group) match a prefix of the input? -/
def phoneRest (l : List Char) : Bool :=
  let s1 := mopt (mchar (fun c => c == '(')) l
  let s2 := s1.flatMap (mdigitsExact 3)
  let s3 := s2.flatMap (mopt (mchar (fun c => c == ')')))
  let s4 := s3.flatMap (mopt (mchar isSepChar))
  let s5 := s4.flatMap (mdigitsExact 3)
  let s6 := s5.flatMap (mopt (mchar isSepChar))
  let s7 := s6.flatMap (mdigitsExact 4)
  !s7.isEmpty

/-- The alternatives of the capture group `(\+\d{1,3}[-.\s]?)?` at a fixed
position, in backtracking order: the participating alternatives (with their
captured text) first, the non-participating one last. -/
def phonePrefixAlts (l : List Char) : List (Option (List Char) × List Char) :=
  let part : List (List Char) :=
    match l with
    | '+' :: rest => (mdigits13 rest).flatMap (mopt (mchar isSepChar))
    | _ => []
  part.map (fun r => (some (l.take (l.length - r.length)), r)) ++ [(none, l)]

/-- One attempt of the phone pattern at a fixed start position: group 1 of
the first alternative whose continuation matches; a non-participating group
is reported as `""`, as `FindStringSubmatch` does. -/
def phoneTryAt (l : List Char) : Option String :=
  ((phonePrefixAlts l).find? (fun alt => phoneRest alt.2)).map
    (fun alt =>
      match alt.1 with
      | some cap => String.mk cap
      | none => "")

/-- Leftmost scan of the phone pattern. -/
def phoneScan : List Char → Option String
  | [] => none
  | c :: rest =>
    match phoneTryAt (c :: rest) with
    | some s => some s
    | none => phoneScan rest

/-- `FindStringSubmatch` group 1 of the compiled default phone regex
`(?i)(\+\d{1,3}[-.\s]?)?\(?\d{3}\)?[-.\s]?\d{3}[-.\s]?\d{4}`; the single
group is the optional country-code prefix, reported as `""` when it did not
participate in the match. -/
def phoneMatcher (s : String) : Option String :=
  phoneScan s.toList

/-- The `name` entity of `GetDefaultConfig`. -/
def nameEntity : EntityPattern :=
  { etype := "name"
    description := "Person\x27s name"
    matchers := [nameMatcher]
    keywords := ["named", "name", "called"] }

/-- The `email` entity of `GetDefaultConfig`. -/
def emailEntity : EntityPattern :=
  { etype := "email"
    description := "Email address"
    matchers := [emailMatcher]
    keywords := ["email", "e-mail", "mail"] }

/-- The `phone` entity of `GetDefaultConfig`. -/
def phoneEntity : EntityPattern :=
  { etype := "phone"
    description := "Phone number"
    matchers := [phoneMatcher]
    keywords := ["phone", "telephone", "mobile", "cell"] }

/-- The `CREATE_CONTACT` intent of `GetDefaultConfig`. -/
def createContactPattern : IntentPattern :=
  { description := "Create a new contact"
    keywords := ["create", "add", "new", "save"]
    phrases := ["create contact", "add contact", "new contact", "save contact"]
    priority := 10
    variableNames := ["name", "email", "phone"]
    examples := ["create a new contact named bob",
                 "add contact alice with email alice@example.com"] }

/-- The `FIND_CONTACT` intent of `GetDefaultConfig`. -/
def findContactPattern : IntentPattern :=
  { description := "Find or search for a contact"
    keywords := ["find", "search", "look", "get"]
    phrases := ["find contact", "search contact", "look up contact"]
    priority := 8
    variableNames := ["name"]
    examples := ["find contact bob", "search for alice"] }

/-- `GetDefaultConfig` from internal/models/intent_config.go, with its entity
regexes already compiled into the matcher models above.  The association
lists are in source declaration order. -/
def getDefaultConfig : IntentConfig :=
  { domain := "personal_assistant"
    version := "1.0.0"
    intents := [
      ("CREATE_CONTACT", createContactPattern),
      ("FIND_CONTACT", findContactPattern)]
    entities := [
      ("name", nameEntity), ("email", emailEntity), ("phone", phoneEntity)]
    synonyms := [
      ("create", ["add", "new", "save", "store", "insert"]),
      ("find", ["search", "look", "locate", "get"]),
      ("update", ["change", "modify", "edit", "alter"]),
      ("delete", ["remove", "drop", "erase", "clear"])]
    confidence := [
      ("CREATE_CONTACT", 7/10),
      ("FIND_CONTACT", 6/10),
      ("UPDATE_CONTACT", 6/10),
      ("DELETE_CONTACT", 6/10)] }

/-- The confidence threshold as the specification words it: the configured
value for the intent, or the default 0.5 when no threshold is configured for
it.  It differs from `codeThreshold` only on intents whose configured
threshold is exactly 0 (the source treats a zero map read as unset). -/
def specThreshold (cfg : IntentConfig) (name : String) : ℚ :=
  match lookupStr cfg.confidence name with
  | some t => t
  | none => 1/2

/-- Two model configurations that represent the same Go configuration value:
equal in every field, with the intent association lists permutations of each
other (a Go map does not carry an iteration order, so any enumeration order
of the same key/value set is the same map). -/
def sameGoConfig (c₁ c₂ : IntentConfig) : Prop :=
  c₁.domain = c₂.domain ∧ c₁.version = c₂.version ∧ c₁.intents.Perm c₂.intents ∧
  c₁.entities = c₂.entities ∧ c₁.synonyms = c₂.synonyms ∧ c₁.confidence = c₂.confidence

/-- A minimal intent pattern matched exactly by the text `"hello"`; two
copies of it produce an exact score tie. -/
def tiePattern : IntentPattern :=
  { description := "tie", keywords := ["hello"] }

/-- A two-intent configuration enumerating the tied intents as `A` then `B`. -/
def cfgTieAB : IntentConfig :=
  { domain := "d", version := "1",
    intents := [("A", tiePattern), ("B", tiePattern)],
    entities := [], synonyms := [], confidence := [] }

/-- The same Go configuration as `cfgTieAB`, enumerated as `B` then `A`. -/
def cfgTieBA : IntentConfig :=
  { domain := "d", version := "1",
    intents := [("B", tiePattern), ("A", tiePattern)],
    entities := [], synonyms := [], confidence := [] }

/-- An intent pattern whose only keyword `"zzz"` misses short test inputs. -/
def zzzPattern : IntentPattern :=
  { description := "z", keywords := ["zzz"] }

/-- A one-intent configuration used to exercise the threshold reversion. -/
def cfgNoMatch : IntentConfig :=
  { domain := "d", version := "1",
    intents := [("A", zzzPattern)],
    entities := [], synonyms := [], confidence := [] }

/-- An intent pattern with the single keyword `"hi"`, for the length-bonus
analysis. -/
def hiPattern : IntentPattern :=
  { description := "hi", keywords := ["hi"] }

/-- A one-intent configuration around `hiPattern`. -/
def cfgHi : IntentConfig :=
  { domain := "d", version := "1",
    intents := [("HI", hiPattern)],
    entities := [], synonyms := [], confidence := [] }

/-- An intent whose required-field list contains the empty string and whose
custom follow-up list contains the empty template. -/
def emptyFieldPattern : IntentPattern :=
  { description := "a", keywords := ["x"], required := [""], followUp := [""] }

/-- A configuration around `emptyFieldPattern`. -/
def cfgEmptyField : IntentConfig :=
  { domain := "d", version := "1",
    intents := [("A", emptyFieldPattern)],
    entities := [], synonyms := [], confidence := [] }

/-- An intent requiring a `name` field, for the completion-tracker witness. -/
def needsNamePattern : IntentPattern :=
  { description := "t", keywords := ["x"], required := ["name"] }

/-- A configuration around `needsNamePattern`. -/
def cfgNeedsName : IntentConfig :=
  { domain := "d", version := "1",
    intents := [("T", needsNamePattern)],
    entities := [], synonyms := [], confidence := [] }

/-- `getDefaultConfig` with the two intents enumerated in the opposite
order, modelling the other iteration order of the Go intent map. -/
def getDefaultConfigSwapped : IntentConfig :=
  { getDefaultConfig with intents := getDefaultConfig.intents.reverse }

/-
Helper lemmas shared by the claim theorems.
-/

theorem keywordRawScore_eq_sum (syns : List (String × List String)) (tl : String)
    (kws : List String) :
    keywordRawScore syns tl kws = (kws.map (keywordContribution syns tl)).sum := by
  have h : ∀ (l : List String) (a : ℚ),
      l.foldl (fun acc kw => acc + keywordContribution syns tl kw) a
        = a + (l.map (keywordContribution syns tl)).sum := by
    intro l
    induction l with
    | nil => intro a; simp
    | cons x xs ih => intro a; simp [List.foldl_cons, ih, add_assoc]
  simpa [keywordRawScore] using h kws 0

theorem keywordContribution_zero {syns : List (String × List String)} {tl kw : String}
    (h1 : goContains tl (goToLower kw) = false)
    (h2 : ((getSynonyms syns kw).any fun syn => goContains tl (goToLower syn)) = false) :
    keywordContribution syns tl kw = 0 := by
  simp [keywordContribution, h1, h2]

theorem keywordContribution_exact {syns : List (String × List String)} {tl kw : String}
    (h1 : goContains tl (goToLower kw) = true) :
    keywordContribution syns tl kw = 2/5 := by
  simp [keywordContribution, h1]

theorem regexSignal_eq_zero {pat : IntentPattern} {text : String}
    (h : pat.regexes = []) :
    regexSignal pat text = 0 := by
  simp [regexSignal, h]

theorem phraseSignal_eq_zero {pat : IntentPattern} {tl : String}
    (h : (pat.phrases.any fun ph => goContains tl (goToLower ph)) = false) :
    phraseSignal pat tl = 0 := by
  simp [phraseSignal, h]

theorem calculateWordOverlap_eval (tw iw : List String) (c n : ℕ)
    (hc : (iw.filter fun w => tw.contains w).length = c) (hn : iw.length = n) (hn0 : n ≠ 0) :
    calculateWordOverlap tw iw = (c : ℚ) / (n : ℚ) := by
  rw [calculateWordOverlap, hn, if_neg hn0, hc]

theorem keywordSignal_eq_div (syns : List (String × List String)) (tl : String)
    (kws : List String) (h : 0 < kws.length) :
    keywordSignal syns tl kws
      = (kws.map (keywordContribution syns tl)).sum / (kws.length : ℚ) := by
  simp [keywordSignal, keywordRawScore_eq_sum, h]

theorem calculateIntentScoreBase_eq (cfg : IntentConfig) (text : String) (pat : IntentPattern) :
    calculateIntentScoreBase cfg text pat
      = regexSignal pat text + phraseSignal pat (goToLower text)
        + keywordSignal cfg.synonyms (goToLower text) pat.keywords
        + calculateWordOverlap (tokenize text) (getIntentWords pat) * (1/5) := rfl

theorem boostedScore_create_xyz :
    boostedScore getDefaultConfig "xyz zzz qqq" createContactPattern = 1 := by
  have hk : ∀ kw ∈ createContactPattern.keywords,
      keywordContribution getDefaultConfig.synonyms (goToLower "xyz zzz qqq") kw = 0 := by
    intro kw hkw
    simp only [createContactPattern] at hkw
    fin_cases hkw <;> exact keywordContribution_zero (by decide) (by decide)
  have hsum : keywordSignal getDefaultConfig.synonyms (goToLower "xyz zzz qqq")
      createContactPattern.keywords = 0 := by
    rw [keywordSignal_eq_div _ _ _ (by decide)]
    have h0 : (createContactPattern.keywords.map
        (keywordContribution getDefaultConfig.synonyms (goToLower "xyz zzz qqq"))).sum = 0 := by
      apply List.sum_eq_zero
      intro x hx
      obtain ⟨kw, hkw, rfl⟩ := List.mem_map.mp hx
      exact hk kw hkw
    rw [h0, zero_div]
  have hov : calculateWordOverlap (tokenize "xyz zzz qqq")
      (getIntentWords createContactPattern) = 0 := by
    rw [calculateWordOverlap_eval _ _ 0 12 (by decide) (by decide) (by decide)]
    norm_num
  rw [boostedScore, calculateIntentScore, calculateIntentScoreBase_eq,
    regexSignal_eq_zero rfl, phraseSignal_eq_zero (by decide), hsum, hov,
    if_neg (by decide : ¬ ("xyz zzz qqq".length > 20))]
  norm_num [createContactPattern]

theorem boostedScore_find_xyz :
    boostedScore getDefaultConfig "xyz zzz qqq" findContactPattern = 4/5 := by
  have hk : ∀ kw ∈ findContactPattern.keywords,
      keywordContribution getDefaultConfig.synonyms (goToLower "xyz zzz qqq") kw = 0 := by
    intro kw hkw
    simp only [findContactPattern] at hkw
    fin_cases hkw <;> exact keywordContribution_zero (by decide) (by decide)
  have hsum : keywordSignal getDefaultConfig.synonyms (goToLower "xyz zzz qqq")
      findContactPattern.keywords = 0 := by
    rw [keywordSignal_eq_div _ _ _ (by decide)]
    have h0 : (findContactPattern.keywords.map
        (keywordContribution getDefaultConfig.synonyms (goToLower "xyz zzz qqq"))).sum = 0 := by
      apply List.sum_eq_zero
      intro x hx
      obtain ⟨kw, hkw, rfl⟩ := List.mem_map.mp hx
      exact hk kw hkw
    rw [h0, zero_div]
  have hov : calculateWordOverlap (tokenize "xyz zzz qqq")
      (getIntentWords findContactPattern) = 0 := by
    rw [calculateWordOverlap_eval _ _ 0 11 (by decide) (by decide) (by decide)]
    norm_num
  rw [boostedScore, calculateIntentScore, calculateIntentScoreBase_eq,
    regexSignal_eq_zero rfl, phraseSignal_eq_zero (by decide), hsum, hov,
    if_neg (by decide : ¬ ("xyz zzz qqq".length > 20))]
  norm_num [findContactPattern]

theorem boostedScore_tie_hello :
    boostedScore cfgTieAB "hello" tiePattern = 3/5 := by
  have hsum : keywordSignal cfgTieAB.synonyms (goToLower "hello") tiePattern.keywords = 2/5 := by
    rw [keywordSignal_eq_div _ _ _ (by decide)]
    rw [show tiePattern.keywords = ["hello"] from rfl]
    rw [List.map_cons, List.map_nil, List.sum_cons, List.sum_nil,
      keywordContribution_exact (by decide)]
    norm_num
  have hov : calculateWordOverlap (tokenize "hello") (getIntentWords tiePattern) = 1 := by
    rw [calculateWordOverlap_eval _ _ 1 1 (by decide) (by decide) (by decide)]
    norm_num
  rw [boostedScore, calculateIntentScore, calculateIntentScoreBase_eq,
    regexSignal_eq_zero rfl, phraseSignal_eq_zero (by decide), hsum, hov,
    if_neg (by decide : ¬ ("hello".length > 20))]
  norm_num [tiePattern]

theorem boostedScore_zzz_hi :
    boostedScore cfgNoMatch "hi" zzzPattern = 0 := by
  have hsum : keywordSignal cfgNoMatch.synonyms (goToLower "hi") zzzPattern.keywords = 0 := by
    rw [keywordSignal_eq_div _ _ _ (by decide)]
    rw [show zzzPattern.keywords = ["zzz"] from rfl]
    rw [List.map_cons, List.map_nil, List.sum_cons, List.sum_nil,
      keywordContribution_zero (by decide) (by decide)]
    norm_num
  have hov : calculateWordOverlap (tokenize "hi") (getIntentWords zzzPattern) = 0 := by
    rw [calculateWordOverlap_eval _ _ 0 1 (by decide) (by decide) (by decide)]
    norm_num
  rw [boostedScore, calculateIntentScore, calculateIntentScoreBase_eq,
    regexSignal_eq_zero rfl, phraseSignal_eq_zero (by decide), hsum, hov,
    if_neg (by decide : ¬ ("hi".length > 20))]
  norm_num [zzzPattern]

theorem scoreBase_hi_there_friend :
    calculateIntentScoreBase cfgHi "hi there friend" hiPattern = 3/5 := by
  have hsum : keywordSignal cfgHi.synonyms (goToLower "hi there friend")
      hiPattern.keywords = 2/5 := by
    rw [keywordSignal_eq_div _ _ _ (by decide)]
    rw [show hiPattern.keywords = ["hi"] from rfl]
    rw [List.map_cons, List.map_nil, List.sum_cons, List.sum_nil,
      keywordContribution_exact (by decide)]
    norm_num
  have hov : calculateWordOverlap (tokenize "hi there friend") (getIntentWords hiPattern) = 1 := by
    rw [calculateWordOverlap_eval _ _ 1 1 (by decide) (by decide) (by decide)]
    norm_num
  rw [calculateIntentScoreBase_eq, regexSignal_eq_zero rfl, phraseSignal_eq_zero (by decide),
    hsum, hov]
  norm_num

theorem classifyFold_default_xyz :
    classifyFold getDefaultConfig "xyz zzz qqq" = ("CREATE_CONTACT", 1) := by
  rw [classifyFold,
    show getDefaultConfig.intents
      = [("CREATE_CONTACT", createContactPattern), ("FIND_CONTACT", findContactPattern)] from rfl,
    List.foldl_cons, List.foldl_cons, List.foldl_nil]
  have s1 : classifyStep getDefaultConfig "xyz zzz qqq" ("UNKNOWN", 0)
      ("CREATE_CONTACT", createContactPattern) = ("CREATE_CONTACT", 1) := by
    rw [classifyStep]
    norm_num [boostedScore_create_xyz]
  rw [s1, classifyStep]
  norm_num [boostedScore_find_xyz]

theorem classifyFold_defaultSwapped_xyz :
    classifyFold getDefaultConfigSwapped "xyz zzz qqq" = ("CREATE_CONTACT", 1) := by
  have hb1 : boostedScore getDefaultConfigSwapped "xyz zzz qqq" findContactPattern = 4/5 := by
    rw [show getDefaultConfigSwapped = { getDefaultConfig with
        intents := getDefaultConfig.intents.reverse } from rfl] at *
    rw [boostedScore, calculateIntentScore, calculateIntentScoreBase_eq] at *
    have := boostedScore_find_xyz
    rw [boostedScore, calculateIntentScore, calculateIntentScoreBase_eq] at this
    exact this
  have hb2 : boostedScore getDefaultConfigSwapped "xyz zzz qqq" createContactPattern = 1 := by
    have := boostedScore_create_xyz
    rw [boostedScore, calculateIntentScore, calculateIntentScoreBase_eq] at this ⊢
    exact this
  rw [classifyFold,
    show getDefaultConfigSwapped.intents
      = [("FIND_CONTACT", findContactPattern), ("CREATE_CONTACT", createContactPattern)] from rfl,
    List.foldl_cons, List.foldl_cons, List.foldl_nil]
  have s1 : classifyStep getDefaultConfigSwapped "xyz zzz qqq" ("UNKNOWN", 0)
      ("FIND_CONTACT", findContactPattern) = ("FIND_CONTACT", 4/5) := by
    rw [classifyStep]
    norm_num [hb1]
  rw [s1, classifyStep]
  norm_num [hb2]

theorem classifyIntent_default_xyz :
    classifyIntent getDefaultConfig "xyz zzz qqq" = ⟨"CREATE_CONTACT", 1⟩ := by
  rw [classifyIntent, classifyFold_default_xyz]
  have ht : codeThreshold getDefaultConfig "CREATE_CONTACT" = 7/10 := by
    rw [codeThreshold, show lookupStr getDefaultConfig.confidence "CREATE_CONTACT"
      = some (7/10) from rfl]
    norm_num
  simp only [ht]
  norm_num

theorem classifyIntent_defaultSwapped_xyz :
    classifyIntent getDefaultConfigSwapped "xyz zzz qqq" = ⟨"CREATE_CONTACT", 1⟩ := by
  rw [classifyIntent, classifyFold_defaultSwapped_xyz]
  have ht : codeThreshold getDefaultConfigSwapped "CREATE_CONTACT" = 7/10 := by
    rw [codeThreshold, show lookupStr getDefaultConfigSwapped.confidence "CREATE_CONTACT"
      = some (7/10) from rfl]
    norm_num
  simp only [ht]
  norm_num

theorem classifyFold_tieAB :
    classifyFold cfgTieAB "hello" = ("A", 3/5) := by
  rw [classifyFold,
    show cfgTieAB.intents = [("A", tiePattern), ("B", tiePattern)] from rfl,
    List.foldl_cons, List.foldl_cons, List.foldl_nil]
  have s1 : classifyStep cfgTieAB "hello" ("UNKNOWN", 0) ("A", tiePattern) = ("A", 3/5) := by
    rw [classifyStep]
    norm_num [boostedScore_tie_hello]
  rw [s1, classifyStep]
  norm_num [boostedScore_tie_hello]

theorem classifyFold_tieBA :
    classifyFold cfgTieBA "hello" = ("B", 3/5) := by
  have hb : boostedScore cfgTieBA "hello" tiePattern = 3/5 := by
    have := boostedScore_tie_hello
    rw [boostedScore, calculateIntentScore, calculateIntentScoreBase_eq] at this ⊢
    exact this
  rw [classifyFold,
    show cfgTieBA.intents = [("B", tiePattern), ("A", tiePattern)] from rfl,
    List.foldl_cons, List.foldl_cons, List.foldl_nil]
  have s1 : classifyStep cfgTieBA "hello" ("UNKNOWN", 0) ("B", tiePattern) = ("B", 3/5) := by
    rw [classifyStep]
    norm_num [hb]
  rw [s1, classifyStep]
  norm_num [hb]

theorem classifyIntent_tieAB :
    classifyIntent cfgTieAB "hello" = ⟨"A", 3/5⟩ := by
  rw [classifyIntent, classifyFold_tieAB]
  have ht : codeThreshold cfgTieAB "A" = 1/2 := by
    rw [codeThreshold, show lookupStr cfgTieAB.confidence "A" = none from rfl]
    norm_num
  simp only [ht]
  norm_num

theorem classifyIntent_tieBA :
    classifyIntent cfgTieBA "hello" = ⟨"B", 3/5⟩ := by
  rw [classifyIntent, classifyFold_tieBA]
  have ht : codeThreshold cfgTieBA "B" = 1/2 := by
    rw [codeThreshold, show lookupStr cfgTieBA.confidence "B" = none from rfl]
    norm_num
  simp only [ht]
  norm_num

theorem classifyFold_noMatch_hi :
    classifyFold cfgNoMatch "hi" = ("UNKNOWN", 0) := by
  rw [classifyFold,
    show cfgNoMatch.intents = [("A", zzzPattern)] from rfl,
    List.foldl_cons, List.foldl_nil, classifyStep]
  norm_num [boostedScore_zzz_hi]

theorem ExtractIntent_task (cfg : IntentConfig) (text : String) :
    (ExtractIntent cfg text).task = (classifyIntent cfg (normalizeText text)).intent := by
  simp only [ExtractIntent]
  split
  · rfl
  · rw [addMissingFieldsAndFollowUp]
    cases lookupStr cfg.intents (classifyIntent cfg (normalizeText text)).intent
    · rfl
    · rfl

theorem extractIntent_default_xyz :
    ExtractIntent getDefaultConfig "xyz zzz qqq"
      = { task := "CREATE_CONTACT", vars := [("confidence", GoVal.num 1)],
          missing := [], followUp := [], isComplete := true } := by
  simp only [ExtractIntent]
  rw [show normalizeText "xyz zzz qqq" = "xyz zzz qqq" from by decide,
    classifyIntent_default_xyz,
    show extractEntities getDefaultConfig "xyz zzz qqq" = [] from by decide]
  simp only [List.map_nil]
  rw [show ((⟨"CREATE_CONTACT", 1⟩ : IntentResult).intent == "UNKNOWN") = false from rfl]
  simp only [Bool.false_eq_true, if_false]
  rw [addMissingFieldsAndFollowUp,
    show lookupStr getDefaultConfig.intents "CREATE_CONTACT"
      = some createContactPattern from rfl]
  simp [missingFields, followUpQuestions, createContactPattern, mapSet]

theorem extractIntent_defaultSwapped_xyz :
    ExtractIntent getDefaultConfigSwapped "xyz zzz qqq"
      = { task := "CREATE_CONTACT", vars := [("confidence", GoVal.num 1)],
          missing := [], followUp := [], isComplete := true } := by
  simp only [ExtractIntent]
  rw [show normalizeText "xyz zzz qqq" = "xyz zzz qqq" from by decide,
    classifyIntent_defaultSwapped_xyz,
    show extractEntities getDefaultConfigSwapped "xyz zzz qqq" = [] from by decide]
  simp only [List.map_nil]
  rw [show ((⟨"CREATE_CONTACT", 1⟩ : IntentResult).intent == "UNKNOWN") = false from rfl]
  simp only [Bool.false_eq_true, if_false]
  rw [addMissingFieldsAndFollowUp,
    show lookupStr getDefaultConfigSwapped.intents "CREATE_CONTACT"
      = some createContactPattern from rfl]
  simp [missingFields, followUpQuestions, createContactPattern, mapSet]

/-- C1: the claim states that `"xyz zzz qqq"` against the built-in default
configuration yields intent `"UNKNOWN"` with score 0.  That is false: no
matching signal fires, but the priority boost alone (priority 10 times 0.1)
lifts `CREATE_CONTACT` to score 1, which is not below its configured
threshold 0.7, so classification returns `CREATE_CONTACT` with confidence 1. -/
theorem spec_c1_counterexample :
    (classifyIntent getDefaultConfig (normalizeText "xyz zzz qqq")).intent = "CREATE_CONTACT"
    ∧ (classifyIntent getDefaultConfig (normalizeText "xyz zzz qqq")).intent ≠ "UNKNOWN"
    ∧ (classifyIntent getDefaultConfig (normalizeText "xyz zzz qqq")).confidence = 1 := by
  rw [show normalizeText "xyz zzz qqq" = "xyz zzz qqq" from by decide,
    classifyIntent_default_xyz]
  refine ⟨rfl, by decide, rfl⟩

/-- C1, amended: for the input `"xyz zzz qqq"` against the built-in default
configuration, the result is the intent `CREATE_CONTACT` with confidence 1
(the priority boost of 10 x 0.1 alone exceeds the 0.7 threshold) and the
entity extraction result is an empty map; this holds under either
enumeration order of the two default intents. -/
theorem spec_c1_amended :
    ExtractIntent getDefaultConfig "xyz zzz qqq"
      = { task := "CREATE_CONTACT", vars := [("confidence", GoVal.num 1)],
          missing := [], followUp := [], isComplete := true }
    ∧ ExtractIntent getDefaultConfigSwapped "xyz zzz qqq"
      = { task := "CREATE_CONTACT", vars := [("confidence", GoVal.num 1)],
          missing := [], followUp := [], isComplete := true }
    ∧ extractEntities getDefaultConfig "xyz zzz qqq" = [] :=
  ⟨extractIntent_default_xyz, extractIntent_defaultSwapped_xyz, by decide⟩

/-- C2: the claim states that `extractIntent` is deterministic for a given
(text, compiled configuration) pair.  That is false for configurations with
an exact score tie: the winner depends on the enumeration order of the
intent map, which a Go `range` loop does not fix.  The two configurations
below are the same Go map (a permutation of the same intent list) yet yield
different tasks for the same text. -/
theorem spec_c2_counterexample :
    sameGoConfig cfgTieAB cfgTieBA
    ∧ ExtractIntent cfgTieAB "hello" ≠ ExtractIntent cfgTieBA "hello" := by
  constructor
  · exact ⟨rfl, rfl, List.Perm.swap _ _ _, rfl, rfl, rfl⟩
  · intro h
    have htask := congrArg Intent.task h
    rw [ExtractIntent_task, ExtractIntent_task,
      show normalizeText "hello" = "hello" from by decide,
      classifyIntent_tieAB, classifyIntent_tieBA] at htask
    exact absurd htask (by decide)

/-- C2, amended: `extractIntent` is deterministic for a given (text,
configuration, intent-enumeration order) triple; on an exact score tie the
intent seen earlier in the enumeration wins, because the comparison replaces
the current best only on strict improvement: once the running best has score
`s`, a tail of intents none of which strictly exceeds `s` leaves the best
unchanged.  Since Go map enumeration order varies between calls, distinct
tied intents can win in different calls. -/
theorem spec_c2_amended (cfg : IntentConfig) (text : String) (b : String) (s : ℚ)
    (l : List (String × IntentPattern))
    (h : ∀ e ∈ l, boostedScore cfg text e.2 ≤ s) :
    l.foldl (classifyStep cfg text) (b, s) = (b, s) := by
  induction l with
  | nil => rfl
  | cons x xs ih =>
    rw [List.foldl_cons, classifyStep,
      if_neg (not_lt.mpr (h x (List.mem_cons_self x xs)))]
    exact ih (fun e he => h e (List.mem_cons_of_mem _ he))

/-- Witness for the amended C2: the tied intent `B`, visited after `A`
already holds the equal score 3/5, does not displace `A`. -/
theorem spec_c2_amended_witness :
    List.foldl (classifyStep cfgTieAB "hello") ("A", 3/5) [("B", tiePattern)] = ("A", 3/5) :=
  spec_c2_amended cfgTieAB "hello" "A" (3/5) [("B", tiePattern)]
    (by
      intro e he
      rw [List.mem_singleton] at he
      subst he
      exact le_of_eq boostedScore_tie_hello)

/-- C3: when the boosted score of the winning intent is below its configured
threshold (or below the default 0.5 when none is configured for it, which is
how the specification words the threshold), classification returns
`"UNKNOWN"` with score 0.  The source additionally treats a configured
threshold of exactly 0 as unset, which only widens the reversion, so the
claimed implication holds. -/
theorem spec_c3_threshold (cfg : IntentConfig) (text : String)
    (h : (classifyFold cfg text).2 < specThreshold cfg (classifyFold cfg text).1) :
    classifyIntent cfg text = ⟨"UNKNOWN", 0⟩ := by
  have hcode : (classifyFold cfg text).2 < codeThreshold cfg (classifyFold cfg text).1 := by
    rw [specThreshold] at h
    simp only [codeThreshold]
    cases hl : lookupStr cfg.confidence (classifyFold cfg text).1 with
    | none =>
      rw [hl] at h
      simpa using h
    | some t =>
      rw [hl] at h
      simp only at h
      by_cases ht : t = 0
      · subst ht
        simp only [Option.getD_some, if_pos]
        linarith
      · simpa [Option.getD_some, ht] using h
  simp only [classifyIntent]
  rw [if_pos hcode]
  simp

/-- Witness for C3: on the configuration whose single intent misses the text
`"hi"`, the winning score 0 is below the spec threshold 0.5 and the result
reverts to `"UNKNOWN"` with score 0. -/
theorem spec_c3_witness :
    (classifyFold cfgNoMatch "hi").2 < specThreshold cfgNoMatch (classifyFold cfgNoMatch "hi").1
    ∧ classifyIntent cfgNoMatch "hi" = ⟨"UNKNOWN", 0⟩ := by
  have hh : (classifyFold cfgNoMatch "hi").2
      < specThreshold cfgNoMatch (classifyFold cfgNoMatch "hi").1 := by
    rw [classifyFold_noMatch_hi, specThreshold,
      show lookupStr cfgNoMatch.confidence "UNKNOWN" = none from rfl]
    norm_num
  exact ⟨hh, spec_c3_threshold cfgNoMatch "hi" hh⟩

theorem classifyFold_invariant (cfg : IntentConfig) (text : String) :
    ∀ (l : List (String × IntentPattern)) (init : String × ℚ), 0 ≤ init.2 →
      0 ≤ (l.foldl (classifyStep cfg text) init).2
      ∧ ((l.foldl (classifyStep cfg text) init).1 = init.1
         ∨ (l.foldl (classifyStep cfg text) init).1 ∈ l.map Prod.fst) := by
  intro l
  induction l with
  | nil => intro init h; exact ⟨h, Or.inl rfl⟩
  | cons x xs ih =>
    intro init h
    rw [List.foldl_cons]
    by_cases hb : boostedScore cfg text x.2 > init.2
    · have hstep : classifyStep cfg text init x = (x.1, boostedScore cfg text x.2) := by
        rw [classifyStep, if_pos hb]
      rw [hstep]
      obtain ⟨h0, hor⟩ := ih (x.1, boostedScore cfg text x.2) (le_of_lt (lt_of_le_of_lt h hb))
      refine ⟨h0, Or.inr ?_⟩
      rw [List.map_cons]
      rcases hor with h1 | h1
      · rw [h1]; exact List.mem_cons_self _ _
      · exact List.mem_cons_of_mem _ h1
    · have hstep : classifyStep cfg text init x = init := by
        rw [classifyStep, if_neg hb]
      rw [hstep]
      obtain ⟨h0, hor⟩ := ih init h
      refine ⟨h0, ?_⟩
      rcases hor with h1 | h1
      · exact Or.inl h1
      · exact Or.inr (by rw [List.map_cons]; exact List.mem_cons_of_mem _ h1)

/-- C7: for all inputs and configurations, classification returns a
confidence in the interval [0, 1] and an intent identifier that is either a
configured intent key or the literal `"UNKNOWN"`.  The loop starts from
`("UNKNOWN", 0)` and only moves to configured keys with larger scores; the
final confidence is clamped by `min` with 1. -/
theorem spec_c7_range (cfg : IntentConfig) (text : String) :
    0 ≤ (classifyIntent cfg text).confidence
    ∧ (classifyIntent cfg text).confidence ≤ 1
    ∧ ((classifyIntent cfg text).intent = "UNKNOWN"
       ∨ (classifyIntent cfg text).intent ∈ cfg.intents.map Prod.fst) := by
  obtain ⟨h0, hor⟩ := classifyFold_invariant cfg text cfg.intents ("UNKNOWN", 0) le_rfl
  simp only [classifyIntent]
  by_cases hth : (classifyFold cfg text).2 < codeThreshold cfg (classifyFold cfg text).1
  · rw [if_pos hth]
    refine ⟨?_, ?_, Or.inl rfl⟩
    · norm_num
    · norm_num
  · rw [if_neg hth]
    rw [← classifyFold] at hor h0
    exact ⟨le_min h0 zero_le_one, min_le_right _ _, hor⟩

/-- C8: for an intent with a non-empty keyword list, the keyword signal is
the raw sum of per-keyword contributions (0.4 for a substring match of the
keyword, else 0.3 on the first matching synonym, else 0) divided by the
total number of configured keywords, not by the number of matched
keywords. -/
theorem spec_c8_keyword_normalization (syns : List (String × List String)) (tl : String)
    (kws : List String) (h : 0 < kws.length) :
    keywordSignal syns tl kws
      = (kws.map (fun kw =>
          if goContains tl (goToLower kw) then (2/5 : ℚ)
          else if (getSynonyms syns kw).any (fun syn => goContains tl (goToLower syn)) then 3/10
          else 0)).sum / (kws.length : ℚ) :=
  keywordSignal_eq_div syns tl kws h

/-- Witness for C8 on the default synonym table: the four `CREATE_CONTACT`
keywords against the text `"add new stuff"`. -/
theorem spec_c8_witness :
    0 < (["create", "add", "new", "save"] : List String).length
    ∧ keywordSignal getDefaultConfig.synonyms "add new stuff" ["create", "add", "new", "save"]
      = ((["create", "add", "new", "save"] : List String).map (fun kw =>
          if goContains "add new stuff" (goToLower kw) then (2/5 : ℚ)
          else if (getSynonyms getDefaultConfig.synonyms kw).any
              (fun syn => goContains "add new stuff" (goToLower syn)) then 3/10
          else 0)).sum / ((["create", "add", "new", "save"] : List String).length : ℚ) :=
  ⟨by decide,
   spec_c8_keyword_normalization getDefaultConfig.synonyms "add new stuff"
     ["create", "add", "new", "save"] (by decide)⟩

theorem quotedAux_ne_empty : ∀ (l : List Char) (s : String), quotedAux l = some s → s ≠ "" := by
  intro l
  induction l with
  | nil => intro s h; simp [quotedAux] at h
  | cons c rest ih =>
    intro s h
    simp only [quotedAux] at h
    split at h
    · split at h
      · exact absurd h (by simp)
      · split at h
        · exact ih s h
        · rename_i hcont
          injection h with h2
          intro he
          rw [← h2] at he
          have hnil : rest.takeWhile (fun d => !(d == '"')) = ([] : List Char) :=
            congrArg String.data he
          rw [hnil] at hcont
          exact hcont rfl
    · exact ih s h

theorem quotedSpan_ne_empty {text s : String} (h : quotedSpan text = some s) : s ≠ "" :=
  quotedAux_ne_empty text.toList s h

theorem extractEntityByKeywords_name_quoted {text s : String} {ep : EntityPattern}
    (hq : quotedSpan text = some s) :
    extractEntityByKeywords text "name" ep = s := by
  simp [extractEntityByKeywords, hq]

theorem entityValue_name_quoted {text s : String} {ep : EntityPattern}
    (hre : firstRegexCapture ep.matchers text = none ∨ firstRegexCapture ep.matchers text = some "")
    (hq : quotedSpan text = some s) :
    entityValue text "name" ep = some s := by
  have hs : s ≠ "" := quotedSpan_ne_empty hq
  have hkw : extractEntityByKeywords text "name" ep = s := extractEntityByKeywords_name_quoted hq
  rw [entityValue]
  rcases hre with hre | hre
  · rw [hre]
    simp [hkw, hs]
  · rw [hre]
    simp [hkw, hs]

theorem lookup_extractEntities_of_lookup (cfg : IntentConfig) (text k : String)
    (ep : EntityPattern) (v : String)
    (hep : lookupStr cfg.entities k = some ep)
    (hv : entityValue text k ep = some v) :
    lookupStr (extractEntities cfg text) k = some v := by
  rw [extractEntities]
  have main : ∀ es : List (String × EntityPattern), lookupStr es k = some ep →
      lookupStr (es.filterMap
        (fun e => (entityValue text e.1 e.2).map (fun w => (e.1, w)))) k = some v := by
    intro es
    induction es with
    | nil => intro h; simp [lookupStr] at h
    | cons e rest ih =>
      obtain ⟨n, p⟩ := e
      intro h
      rw [List.filterMap_cons]
      by_cases hk : (n == k) = true
      · have hn : n = k := by simpa using hk
        subst hn
        rw [lookupStr, List.find?_cons_of_pos _ (by simp)] at h
        simp only [Option.map_some'] at h
        injection h with h2
        subst h2
        simp only [hv, Option.map_some']
        rw [lookupStr, List.find?_cons_of_pos _ (by simp)]
        rfl
      · rw [lookupStr, List.find?_cons_of_neg _ (by simpa using hk)] at h
        rw [← lookupStr] at h
        cases hval : entityValue text n p with
        | none =>
          simp only [hval, Option.map_none']
          exact ih h
        | some w =>
          simp only [hval, Option.map_some']
          rw [lookupStr, List.find?_cons_of_neg _ (by simpa using hk), ← lookupStr]
          exact ih h
  exact main cfg.entities hep

theorem entityValue_cases {text n v : String} {ep : EntityPattern}
    (h : entityValue text n ep = some v) :
    v ≠ "" ∨ firstRegexCapture ep.matchers text = some "" := by
  rw [entityValue] at h
  cases hr : firstRegexCapture ep.matchers text with
  | none =>
    rw [hr] at h
    simp only at h
    split at h
    · exact absurd h (by simp)
    · rename_i hkw
      injection h with h2
      subst h2
      exact Or.inl (by simpa using hkw)
  | some w =>
    rw [hr] at h
    simp only at h
    split at h
    · rename_i hw
      have hw2 : w = "" := by simpa using hw
      subst hw2
      exact Or.inr rfl
    · rename_i hw
      injection h with h2
      subst h2
      exact Or.inl (by simpa using hw)

/-- C4: the claim states that every entity key present in the result of
`extractEntities` maps to a non-empty value.  That is false: the default
phone regex has an optional first capture group, so on the bare number
`"555-123-4567"` the regex matches with a non-participating group,
`FindStringSubmatch` reports `""`, keyword extraction also fails, and the
result map holds `phone ↦ ""`. -/
theorem spec_c4_counterexample :
    extractEntities getDefaultConfig "555-123-4567" = [("phone", "")]
    ∧ lookupStr (extractEntities getDefaultConfig "555-123-4567") "phone" = some "" := by
  constructor
  · decide
  · decide

/-- C4, amended: every entity key present in the result of
`extractEntities` maps to a non-empty value, unless some regex of that
entity matched with an empty first capture group (and keyword extraction
also failed), in which case the key is present with the empty-string
value. -/
theorem spec_c4_amended (cfg : IntentConfig) (text k v : String)
    (h : lookupStr (extractEntities cfg text) k = some v) :
    v ≠ "" ∨ ∃ ep : EntityPattern, (k, ep) ∈ cfg.entities
      ∧ firstRegexCapture ep.matchers text = some "" := by
  rw [extractEntities] at h
  have main : ∀ es : List (String × EntityPattern),
      lookupStr (es.filterMap
        (fun e => (entityValue text e.1 e.2).map (fun w => (e.1, w)))) k = some v →
      v ≠ "" ∨ ∃ ep : EntityPattern, (k, ep) ∈ es
        ∧ firstRegexCapture ep.matchers text = some "" := by
    intro es
    induction es with
    | nil => intro h0; simp [lookupStr] at h0
    | cons e rest ih =>
      obtain ⟨n, p⟩ := e
      intro h0
      rw [List.filterMap_cons] at h0
      cases hval : entityValue text n p with
      | none =>
        rw [hval] at h0
        simp only [Option.map_none'] at h0
        rcases ih h0 with h1 | ⟨ep, hmem, hcap⟩
        · exact Or.inl h1
        · exact Or.inr ⟨ep, List.mem_cons_of_mem _ hmem, hcap⟩
      | some w =>
        rw [hval] at h0
        simp only [Option.map_some'] at h0
        by_cases hk : (n == k) = true
        · have hn : n = k := by simpa using hk
          subst hn
          rw [lookupStr, List.find?_cons_of_pos _ (by simp)] at h0
          simp only [Option.map_some'] at h0
          injection h0 with h2
          subst h2
          rcases entityValue_cases hval with h1 | h1
          · exact Or.inl h1
          · exact Or.inr ⟨p, List.mem_cons_self _ _, h1⟩
        · rw [lookupStr, List.find?_cons_of_neg _ (by simpa using hk), ← lookupStr] at h0
          rcases ih h0 with h1 | ⟨ep, hmem, hcap⟩
          · exact Or.inl h1
          · exact Or.inr ⟨ep, List.mem_cons_of_mem _ hmem, hcap⟩
  exact main cfg.entities h

/-- Witness for the amended C4: the `phone ↦ ""` binding produced on
`"555-123-4567"` is explained by the empty capture of the phone regex. -/
theorem spec_c4_witness :
    ("" : String) ≠ "" ∨ ∃ ep : EntityPattern, ("phone", ep) ∈ getDefaultConfig.entities
      ∧ firstRegexCapture ep.matchers "555-123-4567" = some "" :=
  spec_c4_amended getDefaultConfig "555-123-4567" "phone" "" (by decide)

/-- C5: the claim states that whenever the input contains a double-quoted
substring and a `name` entity is configured, the extracted name equals the
quoted substring.  That is false: the regex strategy runs before the quoted
span heuristic, so on `named Bob "Alice"` the default name regex captures
`Bob` and the quoted `Alice` is never consulted. -/
theorem spec_c5_counterexample :
    lookupStr getDefaultConfig.entities "name" = some nameEntity
    ∧ quotedSpan "named Bob \"Alice\"" = some "Alice"
    ∧ lookupStr (extractEntities getDefaultConfig "named Bob \"Alice\"") "name" = some "Bob"
    ∧ ("Bob" : String) ≠ "Alice" := by
  refine ⟨rfl, by decide, by decide, by decide⟩

/-- C5, amended: when a `name` entity is configured and its regex strategy
produces no non-empty capture (no match, or a match with an empty first
group), the extracted name equals the first non-empty double-quoted
substring of the text, which takes precedence over the anchor-keyword
heuristic. -/
theorem spec_c5_amended (cfg : IntentConfig) (ep : EntityPattern) (text s : String)
    (hep : lookupStr cfg.entities "name" = some ep)
    (hre : firstRegexCapture ep.matchers text = none
           ∨ firstRegexCapture ep.matchers text = some "")
    (hq : quotedSpan text = some s) :
    lookupStr (extractEntities cfg text) "name" = some s :=
  lookup_extractEntities_of_lookup cfg text "name" ep s hep
    (entityValue_name_quoted hre hq)

/-- Witness for the amended C5: on `find contact "Jane Doe"` the default
name regex does not match and the quoted span is extracted. -/
theorem spec_c5_witness :
    lookupStr (extractEntities getDefaultConfig "find contact \"Jane Doe\"") "name"
      = some "Jane Doe" :=
  spec_c5_amended getDefaultConfig nameEntity "find contact \"Jane Doe\"" "Jane Doe"
    rfl (Or.inl (by decide)) (by decide)

/-- C6: the claim states that the 0.1 length bonus fires exactly when the
raw input (before normalization) is longer than 20 characters.  That is
false: the classifier is handed the normalized text, so the bonus tests the
normalized length.  A 22-character raw input that collapses to 15 characters
receives no bonus. -/
theorem spec_c6_counterexample :
    "hi     there    friend".length > 20
    ∧ ¬ ((normalizeText "hi     there    friend").length > 20)
    ∧ calculateIntentScore cfgHi (normalizeText "hi     there    friend") hiPattern
      = calculateIntentScoreBase cfgHi (normalizeText "hi     there    friend") hiPattern
    ∧ calculateIntentScoreBase cfgHi (normalizeText "hi     there    friend") hiPattern = 3/5
    ∧ calculateIntentScore cfgHi (normalizeText "hi     there    friend") hiPattern
      ≠ calculateIntentScoreBase cfgHi (normalizeText "hi     there    friend") hiPattern
        + 1/10 := by
  have hn : normalizeText "hi     there    friend" = "hi there friend" := by decide
  have hsc : calculateIntentScore cfgHi (normalizeText "hi     there    friend") hiPattern
      = calculateIntentScoreBase cfgHi (normalizeText "hi     there    friend") hiPattern := by
    rw [hn, calculateIntentScore, if_neg (by decide : ¬ ("hi there friend".length > 20)), add_zero]
  have hb : calculateIntentScoreBase cfgHi (normalizeText "hi     there    friend") hiPattern
      = 3/5 := by
    rw [hn, scoreBase_hi_there_friend]
  refine ⟨by decide, by decide, hsc, hb, ?_⟩
  rw [hsc, hb]
  norm_num

/-- C6, amended: inside `extractIntent` the classifier scores the normalized
text, and the length-bonus signal adds 0.1 to the composite score exactly
when that normalized text is longer than 20 characters; otherwise it
contributes nothing. -/
theorem spec_c6_amended (cfg : IntentConfig) (pat : IntentPattern) (raw : String) :
    (calculateIntentScore cfg (normalizeText raw) pat
      = calculateIntentScoreBase cfg (normalizeText raw) pat
        + (if (normalizeText raw).length > 20 then (1/10 : ℚ) else 0))
    ∧ ((normalizeText raw).length ≤ 20 →
        calculateIntentScore cfg (normalizeText raw) pat
          = calculateIntentScoreBase cfg (normalizeText raw) pat) := by
  refine ⟨rfl, fun h => ?_⟩
  rw [calculateIntentScore, if_neg (not_lt.mpr h), add_zero]

/-- Witness for the amended C6: the collapsed input is at most 20 characters
long, so its score equals the bonus-free base score. -/
theorem spec_c6_witness :
    calculateIntentScore cfgHi (normalizeText "hi     there    friend") hiPattern
      = calculateIntentScoreBase cfgHi (normalizeText "hi     there    friend") hiPattern :=
  (spec_c6_amended cfgHi hiPattern "hi     there    friend").2 (by decide)

theorem data_append_ne_nil (a b : String) (h : a.data ≠ []) : (a ++ b).data ≠ [] := by
  rw [String.data_append]
  intro he
  exact h (List.append_eq_nil.mp he).1

theorem ne_empty_of_data_ne_nil (a : String) (h : a.data ≠ []) : a ≠ "" :=
  fun he => h (congrArg String.data he)

theorem defaultFieldQuestion_ne_empty (intentName field : String) :
    defaultFieldQuestion intentName field ≠ "" := by
  rw [defaultFieldQuestion]
  repeat' split
  · exact ne_empty_of_data_ne_nil _
      (data_append_ne_nil _ _ (data_append_ne_nil _ _ (by decide)))
  · decide
  · decide
  · decide
  · exact ne_empty_of_data_ne_nil _
      (data_append_ne_nil _ _ (data_append_ne_nil _ _ (by decide)))
  · exact ne_empty_of_data_ne_nil _
      (data_append_ne_nil _ _ (data_append_ne_nil _ _ (by decide)))
  · exact ne_empty_of_data_ne_nil _
      (data_append_ne_nil _ _ (data_append_ne_nil _ _ (by decide)))
  · exact ne_empty_of_data_ne_nil _
      (data_append_ne_nil _ _ (data_append_ne_nil _ _ (by decide)))
  · exact ne_empty_of_data_ne_nil _
      (data_append_ne_nil _ _ (data_append_ne_nil _ _ (by decide)))
  · exact ne_empty_of_data_ne_nil _
      (data_append_ne_nil _ _ (data_append_ne_nil _ _ (by decide)))
  · exact ne_empty_of_data_ne_nil _
      (data_append_ne_nil _ _ (data_append_ne_nil _ _ (data_append_ne_nil _ _
        (data_append_ne_nil _ _ (by decide)))))

theorem generateFollowUpQuestion_ne_empty (intentName field : String) (custom : List String)
    (hf : field ≠ "") :
    generateFollowUpQuestion intentName field custom ≠ "" := by
  rw [generateFollowUpQuestion]
  cases hfind : custom.find? (fun q => goContains (goToLower q) (goToLower field)) with
  | none => exact defaultFieldQuestion_ne_empty intentName field
  | some q =>
    have hq := List.find?_some hfind
    intro he
    subst he
    have h1 : (field.data.map Char.toLower).isEmpty = true := hq
    apply hf
    have h2 : field.data = [] := by
      have := List.isEmpty_iff.mp h1
      exact List.map_eq_nil_iff.mp this
    cases field with
    | mk d => cases h2; rfl

theorem fieldMissing_iff (vars : List (String × GoVal)) (f : String) :
    fieldMissing vars f = true
      ↔ (lookupStr vars f = none ∨ lookupStr vars f = some (GoVal.str "")) := by
  cases hl : lookupStr vars f with
  | none => simp [fieldMissing, hl]
  | some v => simp [fieldMissing, hl]

/-- C9: the claim also asserts that each missing field yields a non-empty
follow-up prompt.  That fails in one corner: for a required field named `""`
every custom template contains the field name, so an empty custom template
is returned verbatim and then dropped from the follow-up list, leaving a
missing field with no prompt. -/
theorem spec_c9_counterexample :
    (addMissingFieldsAndFollowUp cfgEmptyField
        { task := "A", vars := [("confidence", GoVal.num 1)] } "A").missing = [""]
    ∧ (addMissingFieldsAndFollowUp cfgEmptyField
        { task := "A", vars := [("confidence", GoVal.num 1)] } "A").followUp = []
    ∧ (addMissingFieldsAndFollowUp cfgEmptyField
        { task := "A", vars := [("confidence", GoVal.num 1)] } "A").isComplete = false := by
  refine ⟨by decide, by decide, by decide⟩

/-- C9, amended: when the winning intent exists in the configuration, a name
is reported missing iff it is in the required list and is absent from the
variable map or bound to the empty string; every missing field with a
non-empty name yields a non-empty follow-up question (the first custom
template containing the field name case-insensitively, verbatim, otherwise
one synthesised from the per-field-type table), which appears in the
follow-up list; and the completeness flag holds iff the missing list is
empty.  (A required field named `""` combined with an empty custom template
is the one exception to the prompt guarantee.) -/
theorem spec_c9_amended (cfg : IntentConfig) (intentName : String) (pat : IntentPattern)
    (base : Intent) (hpat : lookupStr cfg.intents intentName = some pat) :
    (∀ f, f ∈ (addMissingFieldsAndFollowUp cfg base intentName).missing
       ↔ f ∈ pat.required
         ∧ (lookupStr base.vars f = none ∨ lookupStr base.vars f = some (GoVal.str "")))
    ∧ (∀ f, f ∈ (addMissingFieldsAndFollowUp cfg base intentName).missing → f ≠ "" →
        generateFollowUpQuestion intentName f pat.followUp ≠ ""
        ∧ generateFollowUpQuestion intentName f pat.followUp
            ∈ (addMissingFieldsAndFollowUp cfg base intentName).followUp)
    ∧ ((addMissingFieldsAndFollowUp cfg base intentName).isComplete = true
       ↔ (addMissingFieldsAndFollowUp cfg base intentName).missing = []) := by
  have hr : addMissingFieldsAndFollowUp cfg base intentName
      = { base with
          missing := missingFields pat base.vars
          followUp := followUpQuestions intentName pat base.vars
          isComplete := (missingFields pat base.vars).length = 0 } := by
    rw [addMissingFieldsAndFollowUp, hpat]
  rw [hr]
  refine ⟨?_, ?_, ?_⟩
  · intro f
    rw [missingFields, List.mem_filter, fieldMissing_iff]
  · intro f hmem hf
    have hne := generateFollowUpQuestion_ne_empty intentName f pat.followUp hf
    refine ⟨hne, ?_⟩
    rw [followUpQuestions, List.mem_filter]
    refine ⟨List.mem_map_of_mem _ hmem, ?_⟩
    simpa using hne
  · simp only [missingFields]
    rw [decide_eq_true_iff, List.length_eq_zero]

/-- Witness for the amended C9: the intent `T` requires `name`, the
variables hold only the confidence, and the theorem applies with its
conclusions at that instance. -/
theorem spec_c9_witness :
    (∀ f, f ∈ (addMissingFieldsAndFollowUp cfgNeedsName
          { task := "T", vars := [("confidence", GoVal.num 1)] } "T").missing
       ↔ f ∈ needsNamePattern.required
         ∧ (lookupStr [("confidence", GoVal.num 1)] f = none
            ∨ lookupStr [("confidence", GoVal.num 1)] f = some (GoVal.str "")))
    ∧ (∀ f, f ∈ (addMissingFieldsAndFollowUp cfgNeedsName
          { task := "T", vars := [("confidence", GoVal.num 1)] } "T").missing → f ≠ "" →
        generateFollowUpQuestion "T" f needsNamePattern.followUp ≠ ""
        ∧ generateFollowUpQuestion "T" f needsNamePattern.followUp
            ∈ (addMissingFieldsAndFollowUp cfgNeedsName
                { task := "T", vars := [("confidence", GoVal.num 1)] } "T").followUp)
    ∧ ((addMissingFieldsAndFollowUp cfgNeedsName
          { task := "T", vars := [("confidence", GoVal.num 1)] } "T").isComplete = true
       ↔ (addMissingFieldsAndFollowUp cfgNeedsName
          { task := "T", vars := [("confidence", GoVal.num 1)] } "T").missing = []) :=
  spec_c9_amended cfgNeedsName "T" needsNamePattern
    { task := "T", vars := [("confidence", GoVal.num 1)] } rfl

theorem lookupStr_mapSet_self (m : List (String × GoVal)) (k : String) (v : GoVal) :
    lookupStr (mapSet m k v) k = some v := by
  rw [mapSet, lookupStr, List.find?_cons_of_pos _ (by simp)]
  rfl

/-- C10: every result of `extractIntent` holds the key `"confidence"` in its
variable map, bound to the classification confidence (so an extracted entity
named `confidence` is overwritten by the score, since the confidence is
stored after the entities), and a required field named `"confidence"` is
never reported missing, because its value is the float score, which the
`value == ""` check never equals. -/
theorem spec_c10_confidence_key (cfg : IntentConfig) (text : String) :
    lookupStr (ExtractIntent cfg text).vars "confidence"
      = some (GoVal.num (classifyIntent cfg (normalizeText text)).confidence)
    ∧ "confidence" ∉ (ExtractIntent cfg text).missing := by
  simp only [ExtractIntent]
  split
  · exact ⟨lookupStr_mapSet_self _ _ _, List.not_mem_nil _⟩
  · rw [addMissingFieldsAndFollowUp]
    cases hp : lookupStr cfg.intents (classifyIntent cfg (normalizeText text)).intent with
    | none => exact ⟨lookupStr_mapSet_self _ _ _, List.not_mem_nil _⟩
    | some pat =>
      refine ⟨lookupStr_mapSet_self _ _ _, ?_⟩
      intro hmem
      simp only [missingFields, List.mem_filter] at hmem
      have hmiss := (fieldMissing_iff _ _).mp hmem.2
      rw [lookupStr_mapSet_self] at hmiss
      rcases hmiss with h | h
      · exact Option.noConfusion h
      · injection h with h2
        exact GoVal.noConfusion h2

end MyLLM
